import Mathlib

/-!
Verification of the field-extraction engine of the bank/aadhaar document
repository (src/app.py and src/aadhar_app.py).

The Python source is shallowly embedded: strings are Lean `String`s
(manipulated through their `data : List Char` model), Python regular
expressions are embedded by a small backtracking matcher `RE` specialised
to the constructs the source uses (character classes, bounded greedy
repetition, alternation, word boundaries), and the two Flask endpoints are
modelled as pure functions of the OCR text together with the parsed LLM
response (an `Option` of a JSON-object association list; `none` models a
model-call failure or a JSON parse failure).
-/

/-! ## Python string primitives -/

/-- Python whitespace class, the characters matched by the regex class
backslash-s and stripped by str.strip: space, tab, newline, carriage
return, form feed, vertical tab. -/
def isPySpace (c : Char) : Bool :=
  c == ' ' || c == '\t' || c == '\n' || c == '\r' || c == '\x0b' || c == '\x0c'

/-- Replace every maximal run of characters satisfying p by a single space.
Embeds the re.sub calls of the form re.sub(CLASS+, " ", text). The flag
records whether the previous character was inside a run. -/
def replRuns (p : Char → Bool) : Bool → List Char → List Char
  | _, [] => []
  | inRun, c :: cs =>
    if p c then
      if inRun then replRuns p true cs else ' ' :: replRuns p true cs
    else c :: replRuns p false cs

/-- re.sub(r"\s+", " ", text): collapse whitespace runs to single spaces. -/
def collapseWs (s : String) : String := ⟨replRuns isPySpace false s.data⟩

/-- re.sub(r"[|]+", " ", text): collapse pipe runs to single spaces. -/
def collapsePipes (s : String) : String := ⟨replRuns (fun c => c == '|') false s.data⟩

/-- re.sub(r"_+", " ", text): collapse underscore runs to single spaces. -/
def collapseUnderscores (s : String) : String := ⟨replRuns (fun c => c == '_') false s.data⟩

/-- Strip leading Python whitespace from a character list. -/
def dropLeadingWs (cs : List Char) : List Char := cs.dropWhile isPySpace

/-- Python str.strip() on the character-list model: drop whitespace from
both ends. -/
def pyStripL (cs : List Char) : List Char :=
  ((cs.dropWhile isPySpace).reverse.dropWhile isPySpace).reverse

/-- Python str.strip(). -/
def pyStrip (s : String) : String := ⟨pyStripL s.data⟩

/-- Python str.upper() (ASCII, which is all the source handles). -/
def pyUpper (s : String) : String := ⟨s.data.map Char.toUpper⟩

/-- Accumulator pass for whitespace-splitting; acc holds the current token
reversed. -/
def pySplitGo : List Char → List Char → List (List Char)
  | acc, [] => if acc.isEmpty then [] else [acc.reverse]
  | acc, c :: cs =>
    if isPySpace c then
      if acc.isEmpty then pySplitGo [] cs else acc.reverse :: pySplitGo [] cs
    else pySplitGo (c :: acc) cs

/-- Python str.split() with no argument: split on whitespace runs,
discarding empty pieces. -/
def pySplit (s : String) : List String := (pySplitGo [] s.data).map String.mk

/-- Whether needle occurs as a contiguous sublist of hay; first the
matching-at-front check. -/
def leadsWith : List Char → List Char → Bool
  | [], _ => true
  | _ :: _, [] => false
  | a :: as, b :: bs => a == b && leadsWith as bs

/-- Contiguous-sublist search, scanning left to right. -/
def containsSeg (needle : List Char) : List Char → Bool
  | [] => leadsWith needle []
  | c :: cs => leadsWith needle (c :: cs) || containsSeg needle cs

/-- Python "needle in hay" on strings (substring containment). -/
def strContainsB (hay needle : String) : Bool := containsSeg needle.data hay.data

/-- Python " ".join(non-empty list); the callers guard the empty list
separately exactly as the source does. -/
def joinSp : List String → String
  | [] => ""
  | [x] => x
  | x :: y :: rest => x ++ " " ++ joinSp (y :: rest)

/-- Python `x or default` on strings: the empty string is falsy. -/
def pyOrDefault (v dflt : String) : String := if v = "" then dflt else v

/-- ASCII alphabetic test (matches Python str.isalpha on the ASCII inputs
the source handles, and the regex class A-Za-z). -/
def isAsciiAlpha (c : Char) : Bool := c.isAlpha

/-- re.sub(r"[^A-Za-z\s]", " ", line): every character that is neither a
letter nor whitespace becomes a single space. -/
def keepAlphaWs (s : String) : String :=
  ⟨s.data.map (fun c => if isAsciiAlpha c || isPySpace c then c else ' ')⟩

/-- re.sub(r"[^A-Za-z\s&]", " ", line): as keepAlphaWs but the ampersand
also survives (used for bank names). -/
def keepAlphaWsAmp (s : String) : String :=
  ⟨s.data.map (fun c => if isAsciiAlpha c || isPySpace c || c == '&' then c else ' ')⟩

/-- Python str.isalpha(): non-empty and every character alphabetic. -/
def pyIsAlpha (s : String) : Bool := !s.data.isEmpty && s.data.all isAsciiAlpha

/-! ## A small regex matcher

Embeds exactly the regular-expression features the source uses:
single-character classes, greedy bounded repetition of a class, greedy
unbounded repetition of a class, concatenation, alternation, the empty
pattern and the word boundary. Matching follows Python re semantics:
leftmost match, greedy repetition with backtracking, alternation trying
the left branch first. -/

inductive RE where
  | eps : RE
  | ch (p : Char → Bool) : RE
  | cat (a b : RE) : RE
  | alt (a b : RE) : RE
  | rep (p : Char → Bool) (lo hi : Nat) : RE
  | star (p : Char → Bool) : RE
  | wb : RE

/-- Python regex word character (the class backslash-w, ASCII): letters,
digits, underscore. -/
def isWordChar (c : Char) : Bool := c.isAlphanum || c == '_'

/-- A word boundary holds between prev and next when exactly one side is a
word character (a missing side counts as non-word). -/
def isBoundaryAt (prev next : Option Char) : Bool :=
  (match prev with | none => false | some c => isWordChar c) !=
  (match next with | none => false | some c => isWordChar c)

/-- Length of the maximal run of p-characters at the front of cs. -/
def runLen (p : Char → Bool) : List Char → Nat
  | [] => 0
  | c :: cs => if p c then runLen p cs + 1 else 0

/-- Candidate lengths for a greedy repetition whose maximal reachable
count is cap and whose minimum is lo: cap, cap-1, ..., lo (empty when
cap < lo). -/
def repCands (lo cap : Nat) : List Nat :=
  (List.range (cap + 1 - lo)).map (fun i => cap - i)

/-- The character preceding position la of cs, where prev precedes
position 0. -/
def prevAfter (prev : Option Char) (cs : List Char) (la : Nat) : Option Char :=
  if la = 0 then prev else cs[la - 1]?

/-- All lengths of prefixes of cs matched by r, in backtracking preference
order (the head is the match Python's engine commits to). prev is the
character just before cs, for word boundaries. -/
def matchLens : RE → Option Char → List Char → List Nat
  | .eps, _, _ => [0]
  | .wb, prev, cs => if isBoundaryAt prev cs.head? then [0] else []
  | .ch p, _, cs =>
    match cs with
    | [] => []
    | c :: _ => if p c then [1] else []
  | .alt a b, prev, cs => matchLens a prev cs ++ matchLens b prev cs
  | .cat a b, prev, cs =>
    (matchLens a prev cs).flatMap (fun la =>
      (matchLens b (prevAfter prev cs la) (cs.drop la)).map (fun lb => la + lb))
  | .rep p lo hi, _, cs => repCands lo (min (runLen p cs) hi)
  | .star p, _, cs => repCands 0 (runLen p cs)

/-- Leftmost search: returns the suffix of the text at which the first
match starts together with the committed match length. -/
def reSearchAux (r : RE) : Option Char → List Char → Option (List Char × Nat)
  | prev, [] => (matchLens r prev []).head?.map (fun l => (([] : List Char), l))
  | prev, c :: cs =>
    match (matchLens r prev (c :: cs)).head? with
    | some l => some (c :: cs, l)
    | none => reSearchAux r (some c) cs

/-- re.search(pattern, s) for a pattern without groups, returning
match.group() (the matched substring); also the first element of
re.findall for such a pattern. -/
def reFirst1 (r : RE) (s : String) : Option String :=
  (reSearchAux r none s.data).map (fun sl => ⟨sl.1.take sl.2⟩)

/-- Leftmost search for a pattern written as a prefix part followed by a
single capture group: returns the suffix at the match start, the prefix
length and the group length. -/
def reSearch2Aux (pre grp : RE) :
    Option Char → List Char → Option (List Char × Nat × Nat)
  | prev, [] =>
    ((matchLens pre prev []).flatMap (fun la =>
      (matchLens grp (prevAfter prev [] la) (([] : List Char).drop la)).map
        (fun lb => (la, lb)))).head?.map (fun p => (([] : List Char), p))
  | prev, c :: cs =>
    match ((matchLens pre prev (c :: cs)).flatMap (fun la =>
      (matchLens grp (prevAfter prev (c :: cs) la) ((c :: cs).drop la)).map
        (fun lb => (la, lb)))).head? with
    | some p => some (c :: cs, p)
    | none => reSearch2Aux pre grp (some c) cs

/-- First element of re.findall for a one-group pattern: the text captured
by the group at the leftmost match. -/
def reFirst2 (pre grp : RE) (s : String) : Option String :=
  (reSearch2Aux pre grp none s.data).map
    (fun t => ⟨(t.1.drop t.2.1).take t.2.2⟩)

/-- re.match(pattern, s): does the pattern match at the start of s. -/
def reMatchesStart (r : RE) (s : String) : Bool :=
  !(matchLens r none s.data).isEmpty

/-- Case-sensitive literal. -/
def lit (s : String) : RE :=
  s.data.foldr (fun c r => RE.cat (RE.ch (fun x => x == c)) r) RE.eps

/-- Case-insensitive literal (re.IGNORECASE). -/
def litCI (s : String) : RE :=
  s.data.foldr (fun c r => RE.cat (RE.ch (fun x => x.toUpper == c.toUpper)) r) RE.eps

/-- Chained concatenation of a pattern list. -/
def cats (rs : List RE) : RE := rs.foldr RE.cat RE.eps

/-! ## Pattern library (the regexes of the source, verbatim) -/

/-- Regex digit class (ASCII). -/
def digitCl (c : Char) : Bool := c.isDigit

/-- The class A-Z under re.IGNORECASE: any ASCII letter. -/
def alphaCI (c : Char) : Bool := c.isAlpha

/-- The class A-Z0-9 under re.IGNORECASE: any ASCII letter or digit. -/
def alnumCI (c : Char) : Bool := c.isAlphanum

/-- The class 6-9 (first digit of an Indian mobile number). -/
def mobStart (c : Char) : Bool := '6' ≤ c && c ≤ '9'

/-- The separator class [:backslash-s] after an anchor keyword. -/
def sepCl (c : Char) : Bool := c == ':' || isPySpace c

/-- Anchor-keyword prefix KEYWORD[:\s]* (case-insensitive). -/
def kwPre (kw : String) : RE := RE.cat (litCI kw) (RE.star sepCl)

/-- IFSC body [A-Z]{4}0[A-Z0-9]{6}. -/
def ifscBody : RE :=
  cats [RE.rep alphaCI 4 4, RE.ch (fun c => c == '0'), RE.rep alnumCI 6 6]

/-- Bare pattern \b[A-Z]{4}0[A-Z0-9]{6}\b. -/
def ifscBare : RE := cats [RE.wb, ifscBody, RE.wb]

/-- Account-number digits \d{9,18}. -/
def acctDigits : RE := RE.rep digitCl 9 18

/-- Bare pattern \b\d{9,18}\b. -/
def acctBare : RE := cats [RE.wb, acctDigits, RE.wb]

/-- PAN body [A-Z]{5}\d{4}[A-Z]. -/
def panBody : RE := cats [RE.rep alphaCI 5 5, RE.rep digitCl 4 4, RE.rep alphaCI 1 1]

/-- Bare pattern \b[A-Z]{5}\d{4}[A-Z]\b. -/
def panBare : RE := cats [RE.wb, panBody, RE.wb]

/-- Mobile body [6-9]\d{9}. -/
def phoneBody : RE := cats [RE.ch mobStart, RE.rep digitCl 9 9]

/-- Bare pattern \b[6-9]\d{9}\b. -/
def phoneBare : RE := cats [RE.wb, phoneBody, RE.wb]

/-- CIF digits \d{8,12}. -/
def cifDigits : RE := RE.rep digitCl 8 12

/-- The ifsc_code pattern list of extract_bank_data_locally, tried in
order: bare format first, then IFSC- and IFS-anchored captures. -/
def ifscFind (s : String) : Option String :=
  reFirst1 ifscBare s <|> reFirst2 (kwPre "IFSC") ifscBody s <|>
    reFirst2 (kwPre "IFS") ifscBody s

/-- The account_number pattern list: bare 9-18 digit run first, then
A/C-, ACCOUNT- and ACC-anchored captures. -/
def acctFind (s : String) : Option String :=
  reFirst1 acctBare s <|> reFirst2 (kwPre "A/C") acctDigits s <|>
    reFirst2 (kwPre "ACCOUNT") acctDigits s <|> reFirst2 (kwPre "ACC") acctDigits s

/-- The pan_number pattern list: bare format first, then PAN-anchored. -/
def panFind (s : String) : Option String :=
  reFirst1 panBare s <|> reFirst2 (kwPre "PAN") panBody s

/-- The phone_number pattern list: bare format first, then MOBILE-, PHONE-
and MOB-anchored captures. -/
def phoneFind (s : String) : Option String :=
  reFirst1 phoneBare s <|> reFirst2 (kwPre "MOBILE") phoneBody s <|>
    reFirst2 (kwPre "PHONE") phoneBody s <|> reFirst2 (kwPre "MOB") phoneBody s

/-- The cif pattern list: CIF-, CUSTOMER ID- and ID-anchored captures. -/
def cifFind (s : String) : Option String :=
  reFirst2 (kwPre "CIF") cifDigits s <|>
    reFirst2 (cats [litCI "CUSTOMER", RE.star sepCl, litCI "ID", RE.star sepCl]) cifDigits s <|>
    reFirst2 (kwPre "ID") cifDigits s

/-- Aadhaar-number pattern \b\d{4}\s?\d{4}\s?\d{4}\b. -/
def aadhaarNumPat : RE :=
  cats [RE.wb, RE.rep digitCl 4 4, RE.rep isPySpace 0 1, RE.rep digitCl 4 4,
        RE.rep isPySpace 0 1, RE.rep digitCl 4 4, RE.wb]

/-- Date-of-birth pattern \b\d{2}/\d{2}/\d{4}\b. -/
def dobPat : RE :=
  cats [RE.wb, RE.rep digitCl 2 2, RE.ch (fun c => c == '/'), RE.rep digitCl 2 2,
        RE.ch (fun c => c == '/'), RE.rep digitCl 4 4, RE.wb]

/-- Gender pattern \b(MALE|FEMALE|Male|Female|M|F)\b (case-sensitive,
alternatives tried left to right). -/
def genderPat : RE :=
  cats [RE.wb,
        RE.alt (lit "MALE") (RE.alt (lit "FEMALE") (RE.alt (lit "Male")
          (RE.alt (lit "Female") (RE.alt (lit "M") (lit "F"))))),
        RE.wb]

/-- The unanchored 12-digit shape \d{4}\s?\d{4}\s?\d{4} used with re.match
to drop aadhaar numbers from address words. -/
def addr12Pat : RE :=
  cats [RE.rep digitCl 4 4, RE.rep isPySpace 0 1, RE.rep digitCl 4 4,
        RE.rep isPySpace 0 1, RE.rep digitCl 4 4]

/-! ## The aadhaar rule-based extractor (extract_aadhaar_data_locally) -/

/-- The record returned by the aadhaar local extractor, one field per key
of the Python result dict. -/
structure AadhaarResult where
  name : String
  aadhaar_number : String
  date_of_birth : String
  gender : String
  address : String
deriving DecidableEq, Repr

/-- Header words excluded from name candidates. -/
def aadhaarHeaders : List String :=
  ["GOVERNMENT", "INDIA", "AADHAAR", "UNIQUE", "IDENTIFICATION", "AUTHORITY", "OF"]

/-- extract_aadhaar_data_locally of src/aadhar_app.py: collapse
whitespace, run the three regex searches, take the first three
alphabetic non-header words longer than two characters as the name, and
join the last ten whitespace tokens (minus 12-digit-shaped ones) as the
address. Unresolved fields default to the empty string. -/
def extract_aadhaar_data_locally (text0 : String) : AadhaarResult :=
  let text := collapseWs text0
  let aadhaarNum := reFirst1 aadhaarNumPat text
  let dob := reFirst1 dobPat text
  let gender := reFirst1 genderPat text
  let words := pySplit text
  let clean_words := words.filter (fun w =>
    !(aadhaarHeaders.contains (pyUpper w)) && pyIsAlpha w && w.data.length > 2)
  let name := if clean_words.isEmpty then "" else joinSp (clean_words.take 3)
  let address_words := (words.drop (words.length - 10)).filter
    (fun w => !reMatchesStart addr12Pat w)
  let address := if address_words.isEmpty then "" else joinSp address_words
  { name := name,
    aadhaar_number := aadhaarNum.getD "",
    date_of_birth := dob.getD "",
    gender := gender.getD "",
    address := address }

/-! ## Bank text preprocessing (preprocess_bank_text) -/

/-- Split on newline characters, keeping empty pieces (Python
str.split("\n")); acc holds the current piece reversed. -/
def splitNlGo : List Char → List Char → List (List Char)
  | acc, [] => [acc.reverse]
  | acc, c :: cs =>
    if c == '\n' then acc.reverse :: splitNlGo [] cs else splitNlGo (c :: acc) cs

/-- Python text.split("\n"). -/
def splitNl (s : String) : List String := (splitNlGo [] s.data).map String.mk

/-- preprocess_bank_text of src/app.py: collapse whitespace runs, then
pipe runs, then underscore runs, each to a single space; then split the
result on newlines, strip each piece and keep the non-empty ones longer
than two characters. Returns (lines, clean text). -/
def preprocess_bank_text (text : String) : List String × String :=
  let t1 := collapseWs text
  let t2 := collapsePipes t1
  let t3 := collapseUnderscores t2
  let lines := ((splitNl t3).map pyStrip).filter
    (fun l => !l.data.isEmpty && l.data.length > 2)
  (lines, t3)

/-! ## The bank rule-based extractor (extract_bank_data_locally) -/

/-- The record returned by the bank local extractor, one field per key of
the Python result dict. -/
structure BankResult where
  bank_name : String
  branch_name : String
  ifsc_code : String
  name : String
  pan_no : String
  cif : String
  phone_number : String
  account : String
  nominee : String
  address : String
deriving DecidableEq, Repr

/-- Keywords marking a bank-name line. -/
def bankKeywords : List String :=
  ["BANK", "BANKING", "FINANCIAL", "COOPERATIVE", "CREDIT", "UNION"]

/-- Keywords that disqualify a line as a customer name. -/
def skipKeywords : List String :=
  ["BANK", "STATEMENT", "ACCOUNT", "PASSBOOK", "BRANCH", "ADDRESS", "PHONE",
   "MOBILE", "IFSC", "CODE"]

/-- Keywords marking a branch line. -/
def branchKeywords : List String := ["BRANCH", "BR.", "OFFICE"]

/-- Keywords marking an address line. -/
def addressKeywords : List String := ["ADDRESS", "ADDR", "RESIDENCE", "PIN", "PINCODE"]

/-- Keywords marking a nominee line. -/
def nomineeKeywords : List String := ["NOMINEE", "NOMINY", "BENEFICIARY"]

/-- Bank-name line cleaning: drop non letter/space/ampersand characters,
collapse whitespace, strip. -/
def cleanBankLine (line : String) : String := pyStrip (collapseWs (keepAlphaWsAmp line))

/-- Letters-and-spaces line cleaning: drop non letter/space characters,
collapse whitespace, strip. -/
def cleanAlphaLine (line : String) : String := pyStrip (collapseWs (keepAlphaWs line))

/-- Match a keyword (given uppercase) case-insensitively at the front of
the text; on success return the rest. -/
def dropCIKw : List Char → List Char → Option (List Char)
  | [], rest => some rest
  | _ :: _, [] => none
  | k :: ks, c :: cs => if c.toUpper == k then dropCIKw ks cs else none

/-- Fuel-indexed left-to-right scan removing each occurrence of the
keyword together with the [:\s]* run that follows it; the fuel starts at
the text length, which bounds the number of steps. -/
def removeKwRunsAux (kw : List Char) : Nat → List Char → List Char
  | 0, cs => cs
  | _ + 1, [] => []
  | fuel + 1, c :: cs =>
    match dropCIKw kw (c :: cs) with
    | some rest => removeKwRunsAux kw fuel (rest.dropWhile sepCl)
    | none => c :: removeKwRunsAux kw fuel cs

/-- re.sub(KEYWORD + r"[:\s]*", "", line, flags=re.IGNORECASE). -/
def removeKwRuns (kw : String) (s : String) : String :=
  ⟨removeKwRunsAux kw.data s.data.length s.data⟩

/-- Does the uppercased line contain any of the keywords. -/
def kwHitB (kws : List String) (line : String) : Bool :=
  kws.any (fun kw => strContainsB (pyUpper line) kw)

/-- Bank-name scan of the first ten lines: first line containing a bank
keyword whose cleaned form is longer than five characters; empty string
when none qualifies. -/
def findBankName (lines : List String) : String :=
  match (lines.take 10).find? (fun line =>
      kwHitB bankKeywords line && (cleanBankLine line).data.length > 5) with
  | some line => cleanBankLine line
  | none => ""

/-- The customer-name qualification test of extract_bank_data_locally: the
cleaned line is non-empty, has two to four tokens, contains no skip
keyword and no digit, and is longer than five characters. -/
def custQualB (line : String) : Bool :=
  let c := cleanAlphaLine line
  !c.data.isEmpty && 2 ≤ (pySplit c).length && (pySplit c).length ≤ 4 &&
    !(skipKeywords.any (fun kw => strContainsB (pyUpper c) kw)) &&
    !(c.data.any Char.isDigit) && c.data.length > 5

/-- Customer-name scan: first qualifying line, cleaned; empty string when
none qualifies. -/
def findCustomerName (lines : List String) : String :=
  match lines.find? custQualB with
  | some line => cleanAlphaLine line
  | none => ""

/-- Branch-line qualification: a branch keyword occurs in the line, and
the cleaned line contains BRANCH and is longer than ten characters. -/
def branchQualB (line : String) : Bool :=
  kwHitB branchKeywords line &&
    strContainsB (pyUpper (cleanAlphaLine line)) "BRANCH" &&
    (cleanAlphaLine line).data.length > 10

/-- Branch scan: first qualifying line, cleaned; empty when none. -/
def findBranchName (lines : List String) : String :=
  match lines.find? branchQualB with
  | some line => cleanAlphaLine line
  | none => ""

/-- Address-line cleaning: remove ADDRESS[:\s]* occurrences, strip. -/
def addrCleanLine (line : String) : String := pyStrip (removeKwRuns "ADDRESS" line)

/-- Address scan: every line containing an address keyword whose cleaned
form is non-empty and longer than five characters, in document order. -/
def findAddressLines (lines : List String) : List String :=
  lines.filterMap (fun line =>
    if kwHitB addressKeywords line then
      if !(addrCleanLine line).data.isEmpty && (addrCleanLine line).data.length > 5 then
        some (addrCleanLine line)
      else none
    else none)

/-- Nominee-line cleaning: remove NOMINEE[:\s]* occurrences, drop non
letter/space characters, collapse whitespace, strip. -/
def nomCleanLine (line : String) : String :=
  pyStrip (collapseWs (keepAlphaWs (removeKwRuns "NOMINEE" line)))

/-- Nominee-line qualification: a nominee keyword occurs in the line and
the cleaned line is non-empty and longer than three characters. -/
def nomQualB (line : String) : Bool :=
  kwHitB nomineeKeywords line &&
    !(nomCleanLine line).data.isEmpty && (nomCleanLine line).data.length > 3

/-- Nominee scan: first qualifying line, cleaned; empty when none. -/
def findNominee (lines : List String) : String :=
  match lines.find? nomQualB with
  | some line => nomCleanLine line
  | none => ""

/-- extract_bank_data_locally of src/app.py: preprocess the text, run the
ordered pattern lists on the flattened text, run the line heuristics, and
assemble the ten-field record with Not Available defaults. -/
def extract_bank_data_locally (text : String) : BankResult :=
  let pr := preprocess_bank_text text
  let lines := pr.1
  let clean_text := pr.2
  let addressLines := findAddressLines lines
  { bank_name := pyOrDefault (findBankName lines) "Not Available",
    branch_name := pyOrDefault (findBranchName lines) "Not Available",
    ifsc_code := (ifscFind clean_text).getD "Not Available",
    name := pyOrDefault (findCustomerName lines) "Not Available",
    pan_no := (panFind clean_text).getD "Not Available",
    cif := (cifFind clean_text).getD "Not Available",
    phone_number := (phoneFind clean_text).getD "Not Available",
    account := (acctFind clean_text).getD "Not Available",
    nominee := pyOrDefault (findNominee lines) "Not Available",
    address := pyOrDefault (if addressLines.isEmpty then "" else joinSp addressLines)
      "Not Available" }

/-! ## The two endpoints (extract_bank and extract_aadhaar routes)

The LLM boundary is modelled by the parsed argument: some d is a model
response that parsed as a JSON object with entries d, and none is any
model failure (client unset, API error, or json.loads failure). -/

/-- A parsed JSON value as Python manipulates it. -/
inductive PyVal where
  | str (s : String)
  | intv (n : Int)
  | null
  | arr (l : List PyVal)
  | obj (l : List (String × PyVal))

/-- The per-value cleanup of the extract_bank route: strings are stripped
and coerced from empty to Not Available, every other value is kept. -/
def bankCleanVal : PyVal → PyVal
  | .str s => let t := pyStrip s; .str (if t.data.isEmpty then "Not Available" else t)
  | v => v

/-- The cleanup loop of the extract_bank route, applied to every entry of
the extracted dict. -/
def bankCleanup (d : List (String × PyVal)) : List (String × PyVal) :=
  d.map (fun kv => (kv.1, bankCleanVal kv.2))

/-- The bank result dict as built at the end of extract_bank_data_locally,
keys in source order. -/
def bankToPy (r : BankResult) : List (String × PyVal) :=
  [("bank_name", .str r.bank_name), ("branch_name", .str r.branch_name),
   ("ifsc_code", .str r.ifsc_code), ("name", .str r.name),
   ("pan_no", .str r.pan_no), ("cif", .str r.cif),
   ("phone_number", .str r.phone_number), ("account", .str r.account),
   ("nominee", .str r.nominee), ("address", .str r.address)]

/-- The aadhaar result dict as built at the end of
extract_aadhaar_data_locally, keys in source order. -/
def aadhaarToPy (r : AadhaarResult) : List (String × PyVal) :=
  [("name", .str r.name), ("aadhaar_number", .str r.aadhaar_number),
   ("date_of_birth", .str r.date_of_birth), ("gender", .str r.gender),
   ("address", .str r.address)]

/-- The extract_bank route after OCR: a falsy parsed response (failure or
empty object) falls back to the local extractor, then the cleanup loop
runs on the non-empty dict, which is returned to the caller. -/
def extract_bank (combined_text : String)
    (parsed : Option (List (String × PyVal))) : List (String × PyVal) :=
  let d := match parsed with
    | none => bankToPy (extract_bank_data_locally combined_text)
    | some d =>
      if d.isEmpty then bankToPy (extract_bank_data_locally combined_text) else d
  if d.isEmpty then d else bankCleanup d

/-- The extract_aadhaar route after OCR: a falsy parsed response falls
back to the local extractor; the dict is returned with no cleanup pass. -/
def extract_aadhaar (combined_text : String)
    (parsed : Option (List (String × PyVal))) : List (String × PyVal) :=
  match parsed with
  | none => aadhaarToPy (extract_aadhaar_data_locally combined_text)
  | some d =>
    if d.isEmpty then aadhaarToPy (extract_aadhaar_data_locally combined_text) else d

/-- The key sequence of a returned dict. -/
def keysOf (d : List (String × PyVal)) : List String := d.map Prod.fst

/-- The declared bank-schema field set, in source order. -/
def bankFieldNames : List String :=
  ["bank_name", "branch_name", "ifsc_code", "name", "pan_no", "cif",
   "phone_number", "account", "nominee", "address"]

/-- The declared identity-schema field set, in source order. -/
def aadhaarFieldNames : List String :=
  ["name", "aadhaar_number", "date_of_birth", "gender", "address"]

/-! ## Helper lemmas: stripping and joining -/

/-- Character lists whose first and last characters (when present) are not
Python whitespace; str.strip fixes exactly these. -/
def noEdgeSpace (cs : List Char) : Prop :=
  (∀ c, cs.head? = some c → isPySpace c = false) ∧
  (∀ c, cs.getLast? = some c → isPySpace c = false)

theorem dropWhile_id_of_head {p : Char → Bool} {cs : List Char}
    (h : ∀ c, cs.head? = some c → p c = false) : cs.dropWhile p = cs := by
  cases cs with
  | nil => rfl
  | cons a t => simp [List.dropWhile_cons, h a rfl]

theorem head_dropWhile_false (p : Char → Bool) :
    ∀ (cs : List Char) (c : Char), (cs.dropWhile p).head? = some c → p c = false := by
  intro cs
  induction cs with
  | nil => intro c h; simp [List.dropWhile] at h
  | cons a t ih =>
    intro c h
    rw [List.dropWhile_cons] at h
    by_cases hp : p a
    · rw [if_pos hp] at h
      exact ih c h
    · rw [if_neg hp] at h
      simp only [List.head?_cons, Option.some.injEq] at h
      rw [← h]
      exact Bool.eq_false_iff.mpr hp

theorem mem_of_getLast? : ∀ {cs : List Char} {c : Char}, cs.getLast? = some c → c ∈ cs := by
  intro cs
  induction cs with
  | nil => intro c h; simp at h
  | cons a t ih =>
    intro c h
    cases t with
    | nil =>
      simp only [List.getLast?_singleton, Option.some.injEq] at h
      simp [h]
    | cons b u =>
      rw [List.getLast?_cons_cons] at h
      exact List.mem_cons_of_mem a (ih h)

theorem noEdgeSpace_of_all {cs : List Char}
    (h : ∀ c ∈ cs, isPySpace c = false) : noEdgeSpace cs := by
  constructor
  · intro c hc
    cases cs with
    | nil => simp at hc
    | cons a t =>
      simp only [List.head?_cons, Option.some.injEq] at hc
      exact h c (hc ▸ List.mem_cons_self a t)
  · intro c hc
    exact h c (mem_of_getLast? hc)

theorem pyStripL_of_noEdgeSpace {cs : List Char} (h : noEdgeSpace cs) :
    pyStripL cs = cs := by
  unfold pyStripL
  rw [dropWhile_id_of_head h.1]
  rw [dropWhile_id_of_head (fun c hc => h.2 c (by rwa [List.head?_reverse] at hc))]
  exact List.reverse_reverse cs

theorem noEdgeSpace_pyStripL (cs : List Char) : noEdgeSpace (pyStripL cs) := by
  unfold pyStripL
  constructor
  · intro c hc
    rw [List.head?_reverse] at hc
    obtain ⟨t, ht⟩ := List.dropWhile_suffix (l := (cs.dropWhile isPySpace).reverse) isPySpace
    have hlast : ((cs.dropWhile isPySpace).reverse).getLast? = some c := by
      rw [← ht, List.getLast?_append, hc]
      rfl
    rw [List.getLast?_reverse] at hlast
    exact head_dropWhile_false isPySpace cs c hlast
  · intro c hc
    rw [List.getLast?_reverse] at hc
    exact head_dropWhile_false isPySpace (cs.dropWhile isPySpace).reverse c hc

theorem pyStripL_pyStripL (cs : List Char) : pyStripL (pyStripL cs) = pyStripL cs :=
  pyStripL_of_noEdgeSpace (noEdgeSpace_pyStripL cs)

theorem joinSp_noEdge :
    ∀ ls : List String, (∀ s ∈ ls, s.data ≠ [] ∧ noEdgeSpace s.data) → ls ≠ [] →
      (joinSp ls).data ≠ [] ∧ noEdgeSpace (joinSp ls).data := by
  intro ls
  induction ls with
  | nil => intro _ h; exact absurd rfl h
  | cons x t ih =>
    intro hall _
    cases t with
    | nil => simpa [joinSp] using hall x (List.mem_cons_self x [])
    | cons y u =>
      have hx := hall x (List.mem_cons_self x (y :: u))
      have hrest := ih (fun s hs => hall s (List.mem_cons_of_mem x hs)) (by simp)
      have hdata : (joinSp (x :: y :: u)).data =
          (x.data ++ [' ']) ++ (joinSp (y :: u)).data := by
        show (x ++ " " ++ joinSp (y :: u)).data = _
        rw [String.data_append, String.data_append]
      refine ⟨?_, ?_, ?_⟩
      · rw [hdata]
        intro hnil
        exact hrest.1 (List.append_eq_nil.mp hnil).2
      · intro c hc
        rw [hdata, List.head?_append] at hc
        cases hx' : x.data.head? with
        | none =>
          rw [List.head?_eq_none_iff] at hx'
          exact absurd hx' hx.1
        | some a =>
          have : (x.data ++ [' ']).head? = some a := by
            rw [List.head?_append, hx']
            rfl
          rw [this] at hc
          simp only [Option.or_some, Option.some.injEq] at hc
          exact hc ▸ hx.2.1 a hx'
      · intro c hc
        rw [hdata, List.getLast?_append] at hc
        cases hr' : (joinSp (y :: u)).data.getLast? with
        | none =>
          rw [List.getLast?_eq_none_iff] at hr'
          exact absurd hr' hrest.1
        | some a =>
          rw [hr'] at hc
          simp only [Option.or_some, Option.some.injEq] at hc
          exact hc ▸ hrest.2.2 a hr'

/-! ## Helper lemmas: the regex matcher -/

theorem repCands_mem {lo cap x : Nat} (h : x ∈ repCands lo cap) :
    lo ≤ x ∧ x ≤ cap := by
  unfold repCands at h
  obtain ⟨i, hi, rfl⟩ := List.mem_map.mp h
  rw [List.mem_range] at hi
  omega

theorem runLen_le (p : Char → Bool) : ∀ cs : List Char, runLen p cs ≤ cs.length := by
  intro cs
  induction cs with
  | nil => simp [runLen]
  | cons c t ih =>
    by_cases hp : p c
    · simp only [runLen, hp, if_true, List.length_cons]
      omega
    · simp [runLen, hp]

theorem runLen_take {p : Char → Bool} :
    ∀ (cs : List Char) (l : Nat), l ≤ runLen p cs → ∀ c ∈ cs.take l, p c = true := by
  intro cs
  induction cs with
  | nil => intro l _ c hc; simp at hc
  | cons a t ih =>
    intro l hl c hc
    by_cases hp : p a
    · cases l with
      | zero => simp at hc
      | succ m =>
        simp only [runLen, hp, if_true] at hl
        rw [List.take_succ_cons] at hc
        rcases List.mem_cons.mp hc with rfl | hc2
        · exact hp
        · exact ih m (by omega) c hc2
    · have h0 : runLen p (a :: t) = 0 := by simp [runLen, hp]
      rw [h0] at hl
      have hl0 : l = 0 := Nat.le_zero.mp hl
      subst hl0
      simp at hc

/-- The least number of characters any match of r consumes. -/
def minLen : RE → Nat
  | .eps => 0
  | .wb => 0
  | .ch _ => 1
  | .cat a b => minLen a + minLen b
  | .alt a b => min (minLen a) (minLen b)
  | .rep _ lo _ => lo
  | .star _ => 0

theorem matchLens_le :
    ∀ (r : RE) (prev : Option Char) (cs : List Char) (l : Nat),
      l ∈ matchLens r prev cs → l ≤ cs.length := by
  intro r
  induction r with
  | eps =>
    intro prev cs l h
    simp only [matchLens, List.mem_singleton] at h
    omega
  | wb =>
    intro prev cs l h
    unfold matchLens at h
    split at h
    · simp only [List.mem_singleton] at h
      omega
    · simp at h
  | ch p =>
    intro prev cs l h
    cases cs with
    | nil => simp [matchLens] at h
    | cons a t =>
      have he : matchLens (RE.ch p) prev (a :: t) = if p a = true then [1] else [] := rfl
      rw [he] at h
      split at h
      · simp only [List.mem_singleton] at h
        simp [h]
      · simp at h
  | cat a b iha ihb =>
    intro prev cs l h
    unfold matchLens at h
    obtain ⟨la, hla, hmem⟩ := List.mem_flatMap.mp h
    obtain ⟨lb, hlb, rfl⟩ := List.mem_map.mp hmem
    have h1 := iha prev cs la hla
    have h2 := ihb (prevAfter prev cs la) (cs.drop la) lb hlb
    rw [List.length_drop] at h2
    omega
  | alt a b iha ihb =>
    intro prev cs l h
    unfold matchLens at h
    rcases List.mem_append.mp h with h1 | h2
    · exact iha prev cs l h1
    · exact ihb prev cs l h2
  | rep p lo hi =>
    intro prev cs l h
    unfold matchLens at h
    have := (repCands_mem h).2
    have := runLen_le p cs
    omega
  | star p =>
    intro prev cs l h
    unfold matchLens at h
    have := (repCands_mem h).2
    have := runLen_le p cs
    omega

theorem matchLens_min :
    ∀ (r : RE) (prev : Option Char) (cs : List Char) (l : Nat),
      l ∈ matchLens r prev cs → minLen r ≤ l := by
  intro r
  induction r with
  | eps =>
    intro prev cs l h
    simp [minLen]
  | wb =>
    intro prev cs l h
    simp [minLen]
  | ch p =>
    intro prev cs l h
    cases cs with
    | nil => simp [matchLens] at h
    | cons a t =>
      have he : matchLens (RE.ch p) prev (a :: t) = if p a = true then [1] else [] := rfl
      rw [he] at h
      split at h
      · simp only [List.mem_singleton] at h
        simp [minLen, h]
      · simp at h
  | cat a b iha ihb =>
    intro prev cs l h
    unfold matchLens at h
    obtain ⟨la, hla, hmem⟩ := List.mem_flatMap.mp h
    obtain ⟨lb, hlb, rfl⟩ := List.mem_map.mp hmem
    have h1 := iha prev cs la hla
    have h2 := ihb (prevAfter prev cs la) (cs.drop la) lb hlb
    simp only [minLen]
    omega
  | alt a b iha ihb =>
    intro prev cs l h
    unfold matchLens at h
    simp only [minLen]
    rcases List.mem_append.mp h with h1 | h2
    · have := iha prev cs l h1
      omega
    · have := ihb prev cs l h2
      omega
  | rep p lo hi =>
    intro prev cs l h
    unfold matchLens at h
    exact (repCands_mem h).1
  | star p =>
    intro prev cs l h
    simp [minLen]

/-- Every character class occurring in r implies P. -/
def classOK (P : Char → Prop) : RE → Prop
  | .eps => True
  | .wb => True
  | .ch p => ∀ c, p c = true → P c
  | .cat a b => classOK P a ∧ classOK P b
  | .alt a b => classOK P a ∧ classOK P b
  | .rep p _ _ => ∀ c, p c = true → P c
  | .star p => ∀ c, p c = true → P c

theorem matchLens_chars {P : Char → Prop} :
    ∀ (r : RE), classOK P r → ∀ (prev : Option Char) (cs : List Char) (l : Nat),
      l ∈ matchLens r prev cs → ∀ c ∈ cs.take l, P c := by
  intro r
  induction r with
  | eps =>
    intro _ prev cs l h c hc
    simp only [matchLens, List.mem_singleton] at h
    subst h
    simp at hc
  | wb =>
    intro _ prev cs l h c hc
    unfold matchLens at h
    split at h
    · simp only [List.mem_singleton] at h
      subst h
      simp at hc
    · simp at h
  | ch p =>
    intro hok prev cs l h c hc
    cases cs with
    | nil => simp [matchLens] at h
    | cons a t =>
      have he : matchLens (RE.ch p) prev (a :: t) = if p a = true then [1] else [] := rfl
      rw [he] at h
      split at h
      next hp =>
        simp only [List.mem_singleton] at h
        subst h
        simp only [List.take_succ_cons, List.take_zero, List.mem_singleton] at hc
        rw [hc]
        exact hok a hp
      next => simp at h
  | cat a b iha ihb =>
    intro hok prev cs l h c hc
    unfold matchLens at h
    obtain ⟨la, hla, hmem⟩ := List.mem_flatMap.mp h
    obtain ⟨lb, hlb, rfl⟩ := List.mem_map.mp hmem
    rw [List.take_add] at hc
    rcases List.mem_append.mp hc with h1 | h2
    · exact iha hok.1 prev cs la hla c h1
    · exact ihb hok.2 (prevAfter prev cs la) (cs.drop la) lb hlb c h2
  | alt a b iha ihb =>
    intro hok prev cs l h c hc
    unfold matchLens at h
    rcases List.mem_append.mp h with h1 | h2
    · exact iha hok.1 prev cs l h1 c hc
    · exact ihb hok.2 prev cs l h2 c hc
  | rep p lo hi =>
    intro hok prev cs l h c hc
    unfold matchLens at h
    have hle : l ≤ runLen p cs := by
      have := (repCands_mem h).2
      omega
    exact hok c (runLen_take cs l hle c hc)
  | star p =>
    intro hok prev cs l h c hc
    unfold matchLens at h
    have hle : l ≤ runLen p cs := by
      have := (repCands_mem h).2
      omega
    exact hok c (runLen_take cs l hle c hc)

theorem mem_of_head? {α : Type} {l : List α} {a : α} (h : l.head? = some a) : a ∈ l := by
  cases l with
  | nil => simp at h
  | cons x t =>
    simp only [List.head?_cons, Option.some.injEq] at h
    exact h ▸ List.mem_cons_self x t

theorem reSearchAux_spec :
    ∀ (r : RE) (prev : Option Char) (cs suf : List Char) (l : Nat),
      reSearchAux r prev cs = some (suf, l) → ∃ prev2, l ∈ matchLens r prev2 suf := by
  intro r prev cs
  induction cs generalizing prev with
  | nil =>
    intro suf l h
    unfold reSearchAux at h
    rcases Option.map_eq_some'.mp h with ⟨l0, hl0, heq⟩
    obtain ⟨h1, h2⟩ := Prod.mk.injEq .. ▸ heq
    exact ⟨prev, by rw [← h1, ← h2]; exact mem_of_head? hl0⟩
  | cons c t ih =>
    intro suf l h
    unfold reSearchAux at h
    split at h
    next a hm =>
      rw [Option.some.injEq, Prod.mk.injEq] at h
      obtain ⟨h1, h2⟩ := h
      exact ⟨prev, by rw [← h1, ← h2]; exact mem_of_head? hm⟩
    next => exact ih (some c) suf l h

theorem reFirst1_val {r : RE} {P : Char → Prop} (hok : classOK P r) {s v : String}
    (h : reFirst1 r s = some v) :
    (∀ c ∈ v.data, P c) ∧ minLen r ≤ v.data.length := by
  unfold reFirst1 at h
  cases hs : reSearchAux r none s.data with
  | none => rw [hs] at h; simp at h
  | some pr =>
    rw [hs] at h
    simp only [Option.map_some', Option.some.injEq] at h
    obtain ⟨prev2, hmem⟩ := reSearchAux_spec r none s.data pr.1 pr.2 hs
    have hv : v.data = pr.1.take pr.2 := by rw [← h]
    constructor
    · intro c hc
      exact matchLens_chars r hok prev2 pr.1 pr.2 hmem c (hv ▸ hc)
    · have h1 := matchLens_le r prev2 pr.1 pr.2 hmem
      have h2 := matchLens_min r prev2 pr.1 pr.2 hmem
      rw [hv, List.length_take]
      omega

theorem reSearch2Aux_spec :
    ∀ (pre grp : RE) (prev : Option Char) (cs suf : List Char) (la lb : Nat),
      reSearch2Aux pre grp prev cs = some (suf, la, lb) →
      ∃ prev2, lb ∈ matchLens grp (prevAfter prev2 suf la) (suf.drop la) := by
  intro pre grp prev cs
  induction cs generalizing prev with
  | nil =>
    intro suf la lb h
    unfold reSearch2Aux at h
    rcases Option.map_eq_some'.mp h with ⟨p0, hp0, heq⟩
    have hmem := mem_of_head? hp0
    obtain ⟨la0, _, hmem2⟩ := List.mem_flatMap.mp hmem
    obtain ⟨lb0, hlb0, heq2⟩ := List.mem_map.mp hmem2
    rw [Prod.mk.injEq] at heq
    obtain ⟨h1, h2⟩ := heq
    rw [Prod.mk.injEq] at heq2
    subst h1
    have hla : la0 = la := by rw [heq2.1, h2]
    have hlb : lb0 = lb := by rw [heq2.2, h2]
    rw [← hla, ← hlb]
    exact ⟨prev, hlb0⟩
  | cons c t ih =>
    intro suf la lb h
    unfold reSearch2Aux at h
    split at h
    next p0 hm =>
      have hmem := mem_of_head? hm
      obtain ⟨la0, _, hmem2⟩ := List.mem_flatMap.mp hmem
      obtain ⟨lb0, hlb0, heq2⟩ := List.mem_map.mp hmem2
      rw [Option.some.injEq, Prod.mk.injEq] at h
      obtain ⟨h1, h2⟩ := h
      rw [Prod.mk.injEq] at heq2
      subst h1
      have hla : la0 = la := by rw [heq2.1, h2]
      have hlb : lb0 = lb := by rw [heq2.2, h2]
      rw [← hla, ← hlb]
      exact ⟨prev, hlb0⟩
    next => exact ih (some c) suf la lb h

theorem reFirst2_val {pre grp : RE} {P : Char → Prop} (hok : classOK P grp) {s v : String}
    (h : reFirst2 pre grp s = some v) :
    (∀ c ∈ v.data, P c) ∧ minLen grp ≤ v.data.length := by
  unfold reFirst2 at h
  cases hs : reSearch2Aux pre grp none s.data with
  | none => rw [hs] at h; simp at h
  | some tr =>
    rw [hs] at h
    simp only [Option.map_some', Option.some.injEq] at h
    obtain ⟨prev2, hmem⟩ := reSearch2Aux_spec pre grp none s.data tr.1 tr.2.1 tr.2.2 hs
    have hv : v.data = (tr.1.drop tr.2.1).take tr.2.2 := by rw [← h]
    constructor
    · intro c hc
      exact matchLens_chars grp hok (prevAfter prev2 tr.1 tr.2.1) (tr.1.drop tr.2.1)
        tr.2.2 hmem c (hv ▸ hc)
    · have h1 := matchLens_le grp (prevAfter prev2 tr.1 tr.2.1) (tr.1.drop tr.2.1) tr.2.2 hmem
      have h2 := matchLens_min grp (prevAfter prev2 tr.1 tr.2.1) (tr.1.drop tr.2.1) tr.2.2 hmem
      rw [hv, List.length_take]
      omega

/-! ## Helper lemmas: matched values contain no whitespace -/

/-- The character property "not Python whitespace". -/
def NSp (c : Char) : Prop := isPySpace c = false

theorem isPySpace_elim {c : Char} (h : isPySpace c = true) :
    c = ' ' ∨ c = '\t' ∨ c = '\n' ∨ c = '\r' ∨ c = '\x0b' ∨ c = '\x0c' := by
  simpa [isPySpace, or_assoc] using h

theorem nospace_of_alpha : ∀ c : Char, alphaCI c = true → NSp c := by
  intro c h
  cases hs : isPySpace c with
  | false => exact hs
  | true =>
    rcases isPySpace_elim hs with rfl | rfl | rfl | rfl | rfl | rfl <;>
      exact absurd h (by decide)

theorem nospace_of_alnum : ∀ c : Char, alnumCI c = true → NSp c := by
  intro c h
  cases hs : isPySpace c with
  | false => exact hs
  | true =>
    rcases isPySpace_elim hs with rfl | rfl | rfl | rfl | rfl | rfl <;>
      exact absurd h (by decide)

theorem nospace_of_digit : ∀ c : Char, digitCl c = true → NSp c := by
  intro c h
  cases hs : isPySpace c with
  | false => exact hs
  | true =>
    rcases isPySpace_elim hs with rfl | rfl | rfl | rfl | rfl | rfl <;>
      exact absurd h (by decide)

theorem nospace_of_mob : ∀ c : Char, mobStart c = true → NSp c := by
  intro c h
  cases hs : isPySpace c with
  | false => exact hs
  | true =>
    rcases isPySpace_elim hs with rfl | rfl | rfl | rfl | rfl | rfl <;>
      exact absurd h (by decide)

theorem nospace_of_zero : ∀ c : Char, (c == '0') = true → NSp c := by
  intro c h
  rw [beq_iff_eq] at h
  subst h
  show isPySpace '0' = false
  decide

theorem classOK_ifscBody : classOK NSp ifscBody :=
  ⟨nospace_of_alpha, nospace_of_zero, nospace_of_alnum, trivial⟩

theorem classOK_ifscBare : classOK NSp ifscBare :=
  ⟨trivial, classOK_ifscBody, trivial, trivial⟩

theorem classOK_acctDigits : classOK NSp acctDigits := nospace_of_digit

theorem classOK_acctBare : classOK NSp acctBare :=
  ⟨trivial, nospace_of_digit, trivial, trivial⟩

theorem classOK_panBody : classOK NSp panBody :=
  ⟨nospace_of_alpha, nospace_of_digit, nospace_of_alpha, trivial⟩

theorem classOK_panBare : classOK NSp panBare :=
  ⟨trivial, classOK_panBody, trivial, trivial⟩

theorem classOK_phoneBody : classOK NSp phoneBody :=
  ⟨nospace_of_mob, nospace_of_digit, trivial⟩

theorem classOK_phoneBare : classOK NSp phoneBare :=
  ⟨trivial, classOK_phoneBody, trivial, trivial⟩

theorem classOK_cifDigits : classOK NSp cifDigits := nospace_of_digit

/-! ## Helper lemmas: every extracted bank value is stripped and non-empty -/

theorem stripFix_of_chars {v : String} (hns : ∀ c ∈ v.data, NSp c)
    (hlen : 1 ≤ v.data.length) : pyStrip v = v ∧ v ≠ "" := by
  constructor
  · show (⟨pyStripL v.data⟩ : String) = v
    rw [pyStripL_of_noEdgeSpace (noEdgeSpace_of_all hns)]
  · intro hv
    rw [hv] at hlen
    exact absurd hlen (by decide)

theorem orElse_eq_some {α : Type} {a b : Option α} {v : α} (h : (a <|> b) = some v) :
    a = some v ∨ b = some v := by
  cases a with
  | none => right; simpa using h
  | some x => left; simpa using h

theorem first1_fix {r : RE} {s v : String} (hok : classOK NSp r) (hmin : 1 ≤ minLen r)
    (h : reFirst1 r s = some v) : pyStrip v = v ∧ v ≠ "" := by
  have hv := reFirst1_val hok h
  exact stripFix_of_chars hv.1 (le_trans hmin hv.2)

theorem first2_fix {pre grp : RE} {s v : String} (hok : classOK NSp grp)
    (hmin : 1 ≤ minLen grp) (h : reFirst2 pre grp s = some v) :
    pyStrip v = v ∧ v ≠ "" := by
  have hv := reFirst2_val hok h
  exact stripFix_of_chars hv.1 (le_trans hmin hv.2)

theorem ifscFind_fix {s v : String} (h : ifscFind s = some v) :
    pyStrip v = v ∧ v ≠ "" := by
  unfold ifscFind at h
  rcases orElse_eq_some h with h1 | h23
  · exact first1_fix classOK_ifscBare (by decide) h1
  · rcases orElse_eq_some h23 with h2 | h3
    · exact first2_fix classOK_ifscBody (by decide) h2
    · exact first2_fix classOK_ifscBody (by decide) h3

theorem acctFind_fix {s v : String} (h : acctFind s = some v) :
    pyStrip v = v ∧ v ≠ "" := by
  unfold acctFind at h
  rcases orElse_eq_some h with h1 | h2
  · exact first1_fix classOK_acctBare (by decide) h1
  · rcases orElse_eq_some h2 with h3 | h4
    · exact first2_fix classOK_acctDigits (by decide) h3
    · rcases orElse_eq_some h4 with h5 | h6
      · exact first2_fix classOK_acctDigits (by decide) h5
      · exact first2_fix classOK_acctDigits (by decide) h6

theorem panFind_fix {s v : String} (h : panFind s = some v) :
    pyStrip v = v ∧ v ≠ "" := by
  unfold panFind at h
  rcases orElse_eq_some h with h1 | h2
  · exact first1_fix classOK_panBare (by decide) h1
  · exact first2_fix classOK_panBody (by decide) h2

theorem phoneFind_fix {s v : String} (h : phoneFind s = some v) :
    pyStrip v = v ∧ v ≠ "" := by
  unfold phoneFind at h
  rcases orElse_eq_some h with h1 | h2
  · exact first1_fix classOK_phoneBare (by decide) h1
  · rcases orElse_eq_some h2 with h3 | h4
    · exact first2_fix classOK_phoneBody (by decide) h3
    · rcases orElse_eq_some h4 with h5 | h6
      · exact first2_fix classOK_phoneBody (by decide) h5
      · exact first2_fix classOK_phoneBody (by decide) h6

theorem cifFind_fix {s v : String} (h : cifFind s = some v) :
    pyStrip v = v ∧ v ≠ "" := by
  unfold cifFind at h
  rcases orElse_eq_some h with h1 | h2
  · exact first2_fix classOK_cifDigits (by decide) h1
  · rcases orElse_eq_some h2 with h3 | h4
    · exact first2_fix classOK_cifDigits (by decide) h3
    · exact first2_fix classOK_cifDigits (by decide) h4

theorem pyStrip_idem (s : String) : pyStrip (pyStrip s) = pyStrip s := by
  show (⟨pyStripL (pyStripL s.data)⟩ : String) = ⟨pyStripL s.data⟩
  rw [pyStripL_pyStripL]

theorem pyOr_fix {v : String} (hv : pyStrip v = v) :
    pyStrip (pyOrDefault v "Not Available") = pyOrDefault v "Not Available" ∧
      pyOrDefault v "Not Available" ≠ "" := by
  unfold pyOrDefault
  by_cases h : v = ""
  · rw [if_pos h]
    exact ⟨by decide, by decide⟩
  · rw [if_neg h]
    exact ⟨hv, h⟩

theorem getD_fix {o : Option String}
    (ho : ∀ v, o = some v → pyStrip v = v ∧ v ≠ "") :
    pyStrip (o.getD "Not Available") = o.getD "Not Available" ∧
      o.getD "Not Available" ≠ "" := by
  cases o with
  | none => exact ⟨by decide, by decide⟩
  | some v => exact ho v rfl

theorem findBankName_fix (lines : List String) :
    pyStrip (findBankName lines) = findBankName lines := by
  unfold findBankName
  cases (lines.take 10).find? (fun line =>
      kwHitB bankKeywords line && (cleanBankLine line).data.length > 5) with
  | none => decide
  | some l => exact pyStrip_idem (collapseWs (keepAlphaWsAmp l))

theorem findCustomerName_fix (lines : List String) :
    pyStrip (findCustomerName lines) = findCustomerName lines := by
  unfold findCustomerName
  cases lines.find? custQualB with
  | none => decide
  | some l => exact pyStrip_idem (collapseWs (keepAlphaWs l))

theorem findBranchName_fix (lines : List String) :
    pyStrip (findBranchName lines) = findBranchName lines := by
  unfold findBranchName
  cases lines.find? branchQualB with
  | none => decide
  | some l => exact pyStrip_idem (collapseWs (keepAlphaWs l))

theorem findNominee_fix (lines : List String) :
    pyStrip (findNominee lines) = findNominee lines := by
  unfold findNominee
  cases lines.find? nomQualB with
  | none => decide
  | some l => exact pyStrip_idem (collapseWs (keepAlphaWs (removeKwRuns "NOMINEE" l)))

theorem findAddressLines_mem {lines : List String} {s : String}
    (hs : s ∈ findAddressLines lines) : s.data ≠ [] ∧ noEdgeSpace s.data := by
  unfold findAddressLines at hs
  obtain ⟨line, _, hf⟩ := List.mem_filterMap.mp hs
  by_cases h1 : kwHitB addressKeywords line = true
  · rw [if_pos h1] at hf
    by_cases h2 : (!(addrCleanLine line).data.isEmpty &&
        decide ((addrCleanLine line).data.length > 5)) = true
    · rw [if_pos h2] at hf
      rw [Option.some.injEq] at hf
      subst hf
      constructor
      · intro hnil
        have h3 := ((Bool.and_eq_true ..).mp h2).1
        rw [hnil] at h3
        simp at h3
      · exact noEdgeSpace_pyStripL (removeKwRuns "ADDRESS" line).data
    · rw [if_neg h2] at hf
      exact absurd hf (by simp)
  · rw [if_neg h1] at hf
    exact absurd hf (by simp)

theorem addressVal_fix (lines : List String) :
    pyStrip (if (findAddressLines lines).isEmpty then "" else joinSp (findAddressLines lines)) =
      (if (findAddressLines lines).isEmpty then "" else joinSp (findAddressLines lines)) := by
  by_cases h : (findAddressLines lines).isEmpty = true
  · simp only [if_pos h]
    decide
  · simp only [if_neg h]
    have hne : findAddressLines lines ≠ [] := by
      intro hh
      rw [hh] at h
      exact h rfl
    have hj := joinSp_noEdge (findAddressLines lines)
      (fun s hs => findAddressLines_mem hs) hne
    show (⟨pyStripL (joinSp (findAddressLines lines)).data⟩ : String) = _
    rw [pyStripL_of_noEdgeSpace hj.2]

theorem bank_bankName_fix (text : String) :
    pyStrip (extract_bank_data_locally text).bank_name =
      (extract_bank_data_locally text).bank_name ∧
      (extract_bank_data_locally text).bank_name ≠ "" := by
  have he : (extract_bank_data_locally text).bank_name =
      pyOrDefault (findBankName (preprocess_bank_text text).1) "Not Available" := rfl
  rw [he]
  exact pyOr_fix (findBankName_fix _)

theorem bank_branchName_fix (text : String) :
    pyStrip (extract_bank_data_locally text).branch_name =
      (extract_bank_data_locally text).branch_name ∧
      (extract_bank_data_locally text).branch_name ≠ "" := by
  have he : (extract_bank_data_locally text).branch_name =
      pyOrDefault (findBranchName (preprocess_bank_text text).1) "Not Available" := rfl
  rw [he]
  exact pyOr_fix (findBranchName_fix _)

theorem bank_ifsc_fix (text : String) :
    pyStrip (extract_bank_data_locally text).ifsc_code =
      (extract_bank_data_locally text).ifsc_code ∧
      (extract_bank_data_locally text).ifsc_code ≠ "" := by
  have he : (extract_bank_data_locally text).ifsc_code =
      (ifscFind (preprocess_bank_text text).2).getD "Not Available" := rfl
  rw [he]
  exact getD_fix (fun v hv => ifscFind_fix hv)

theorem bank_custName_fix (text : String) :
    pyStrip (extract_bank_data_locally text).name =
      (extract_bank_data_locally text).name ∧
      (extract_bank_data_locally text).name ≠ "" := by
  have he : (extract_bank_data_locally text).name =
      pyOrDefault (findCustomerName (preprocess_bank_text text).1) "Not Available" := rfl
  rw [he]
  exact pyOr_fix (findCustomerName_fix _)

theorem bank_pan_fix (text : String) :
    pyStrip (extract_bank_data_locally text).pan_no =
      (extract_bank_data_locally text).pan_no ∧
      (extract_bank_data_locally text).pan_no ≠ "" := by
  have he : (extract_bank_data_locally text).pan_no =
      (panFind (preprocess_bank_text text).2).getD "Not Available" := rfl
  rw [he]
  exact getD_fix (fun v hv => panFind_fix hv)

theorem bank_cif_fix (text : String) :
    pyStrip (extract_bank_data_locally text).cif =
      (extract_bank_data_locally text).cif ∧
      (extract_bank_data_locally text).cif ≠ "" := by
  have he : (extract_bank_data_locally text).cif =
      (cifFind (preprocess_bank_text text).2).getD "Not Available" := rfl
  rw [he]
  exact getD_fix (fun v hv => cifFind_fix hv)

theorem bank_phone_fix (text : String) :
    pyStrip (extract_bank_data_locally text).phone_number =
      (extract_bank_data_locally text).phone_number ∧
      (extract_bank_data_locally text).phone_number ≠ "" := by
  have he : (extract_bank_data_locally text).phone_number =
      (phoneFind (preprocess_bank_text text).2).getD "Not Available" := rfl
  rw [he]
  exact getD_fix (fun v hv => phoneFind_fix hv)

theorem bank_account_fix (text : String) :
    pyStrip (extract_bank_data_locally text).account =
      (extract_bank_data_locally text).account ∧
      (extract_bank_data_locally text).account ≠ "" := by
  have he : (extract_bank_data_locally text).account =
      (acctFind (preprocess_bank_text text).2).getD "Not Available" := rfl
  rw [he]
  exact getD_fix (fun v hv => acctFind_fix hv)

theorem bank_nominee_fix (text : String) :
    pyStrip (extract_bank_data_locally text).nominee =
      (extract_bank_data_locally text).nominee ∧
      (extract_bank_data_locally text).nominee ≠ "" := by
  have he : (extract_bank_data_locally text).nominee =
      pyOrDefault (findNominee (preprocess_bank_text text).1) "Not Available" := rfl
  rw [he]
  exact pyOr_fix (findNominee_fix _)

theorem bank_address_fix (text : String) :
    pyStrip (extract_bank_data_locally text).address =
      (extract_bank_data_locally text).address ∧
      (extract_bank_data_locally text).address ≠ "" := by
  have he : (extract_bank_data_locally text).address =
      pyOrDefault
        (if (findAddressLines (preprocess_bank_text text).1).isEmpty then ""
         else joinSp (findAddressLines (preprocess_bank_text text).1)) "Not Available" := rfl
  rw [he]
  exact pyOr_fix (addressVal_fix _)

theorem bankCleanVal_str_fix {v : String} (h1 : pyStrip v = v) (h2 : v ≠ "") :
    bankCleanVal (PyVal.str v) = PyVal.str v := by
  have hne : (pyStrip v).data.isEmpty = false := by
    rw [h1]
    cases hd : v.data with
    | nil =>
      exfalso
      apply h2
      have hv : v = (⟨[]⟩ : String) := by rw [← hd]
      exact hv
    | cons a t => rfl
  show PyVal.str (if (pyStrip v).data.isEmpty = true then "Not Available" else pyStrip v) =
    PyVal.str v
  rw [hne, if_neg (by simp), h1]

/-- The final cleanup pass of the extract_bank route is the identity on
the local extractor's output: every field is already stripped and
non-empty. -/
theorem bankCleanup_local_id (text : String) :
    bankCleanup (bankToPy (extract_bank_data_locally text)) =
      bankToPy (extract_bank_data_locally text) := by
  have h1 := bank_bankName_fix text
  have h2 := bank_branchName_fix text
  have h3 := bank_ifsc_fix text
  have h4 := bank_custName_fix text
  have h5 := bank_pan_fix text
  have h6 := bank_cif_fix text
  have h7 := bank_phone_fix text
  have h8 := bank_account_fix text
  have h9 := bank_nominee_fix text
  have h10 := bank_address_fix text
  simp only [bankCleanup, bankToPy, List.map_cons, List.map_nil]
  rw [bankCleanVal_str_fix h1.1 h1.2, bankCleanVal_str_fix h2.1 h2.2,
    bankCleanVal_str_fix h3.1 h3.2, bankCleanVal_str_fix h4.1 h4.2,
    bankCleanVal_str_fix h5.1 h5.2, bankCleanVal_str_fix h6.1 h6.2,
    bankCleanVal_str_fix h7.1 h7.2, bankCleanVal_str_fix h8.1 h8.2,
    bankCleanVal_str_fix h9.1 h9.2, bankCleanVal_str_fix h10.1 h10.2]

/-! ## Helper lemmas: scans, gates and key sets -/

theorem find?_eq_get {α : Type} (p : α → Bool) :
    ∀ (l : List α) (i : Nat) (h : i < l.length),
      p (l.get ⟨i, h⟩) = true →
      (∀ j (hj : j < i), p (l.get ⟨j, lt_trans hj h⟩) = false) →
      l.find? p = some (l.get ⟨i, h⟩) := by
  intro l
  induction l with
  | nil => intro i h; simp at h
  | cons a t ih =>
    intro i h hp hbelow
    cases i with
    | zero =>
      rw [List.find?_cons]
      have ha : p a = true := hp
      rw [ha]
      rfl
    | succ n =>
      have ha : p a = false := hbelow 0 (Nat.succ_pos n)
      rw [List.find?_cons, ha]
      exact ih n (Nat.lt_of_succ_lt_succ h) hp
        (fun j hj => hbelow (j + 1) (Nat.succ_lt_succ hj))

theorem custQual_clean_ne {l : String} (h : custQualB l = true) :
    cleanAlphaLine l ≠ "" := by
  unfold custQualB at h
  simp only [Bool.and_eq_true] at h
  have h1 := h.1.1.1.1.1
  intro hv
  rw [hv] at h1
  exact absurd h1 (by decide)

theorem pyOr_of_ne {v : String} (h : v ≠ "") : pyOrDefault v "Not Available" = v :=
  if_neg h

theorem findAddressLines_nil {lines : List String}
    (h : ∀ line ∈ lines, kwHitB addressKeywords line = false) :
    findAddressLines lines = [] := by
  unfold findAddressLines
  rw [List.filterMap_eq_nil_iff]
  intro line hl
  rw [if_neg (by rw [h line hl]; exact Bool.false_ne_true)]

theorem bank_address_NA (text : String)
    (h : ∀ line ∈ (preprocess_bank_text text).1, kwHitB addressKeywords line = false) :
    (extract_bank_data_locally text).address = "Not Available" := by
  have he : (extract_bank_data_locally text).address =
      pyOrDefault
        (if (findAddressLines (preprocess_bank_text text).1).isEmpty then ""
         else joinSp (findAddressLines (preprocess_bank_text text).1)) "Not Available" := rfl
  rw [he, findAddressLines_nil h]
  rfl

theorem keysOf_bankToPy (r : BankResult) : keysOf (bankToPy r) = bankFieldNames := rfl

theorem keysOf_aadhaarToPy (r : AadhaarResult) :
    keysOf (aadhaarToPy r) = aadhaarFieldNames := rfl

theorem keysOf_bankCleanup (d : List (String × PyVal)) :
    keysOf (bankCleanup d) = keysOf d := by
  induction d with
  | nil => rfl
  | cons kv t ih =>
    show kv.1 :: keysOf (bankCleanup t) = kv.1 :: keysOf t
    rw [ih]

theorem extract_bank_none (text : String) :
    extract_bank text none = bankToPy (extract_bank_data_locally text) := by
  have hne : (bankToPy (extract_bank_data_locally text)).isEmpty = false := rfl
  show (if (bankToPy (extract_bank_data_locally text)).isEmpty = true then
      bankToPy (extract_bank_data_locally text)
    else bankCleanup (bankToPy (extract_bank_data_locally text))) = _
  rw [hne, if_neg (by simp)]
  exact bankCleanup_local_id text

theorem extract_aadhaar_none (text : String) :
    extract_aadhaar text none = aadhaarToPy (extract_aadhaar_data_locally text) := rfl

theorem extract_bank_some_cons (text : String) (kv : String × PyVal)
    (d : List (String × PyVal)) :
    extract_bank text (some (kv :: d)) = bankCleanup (kv :: d) := rfl

/-! ## Claim theorems -/

/-- The disambiguation-scenario input of the specification. -/
def rameshText : String :=
  "RAMESH KUMAR S/O SURESH KUMAR DOB 01/01/1990 MALE 1234 5678 9012"

/-- C2 counterexample: on the specified input the rule-based extractor
does not return name RAMESH KUMAR (it promotes SURESH, which follows the
relation indicator S/O, into the name), and does not return address Not
Available. -/
theorem c2_counterexample :
    (extract_aadhaar_data_locally rameshText).name ≠ "RAMESH KUMAR" ∧
    (extract_aadhaar_data_locally rameshText).address ≠ "Not Available" := by decide

/-- C2 (amended): on the identity schema, the rule-based extractor applied
to the disambiguation-scenario input returns name RAMESH KUMAR SURESH
(the first three alphabetic non-header words, with no relation-indicator
logic), identifier 1234 5678 9012, date of birth 01/01/1990, gender MALE,
and as address the last ten whitespace tokens joined, not Not Available. -/
theorem c2_theorem :
    extract_aadhaar_data_locally rameshText =
      { name := "RAMESH KUMAR SURESH",
        aadhaar_number := "1234 5678 9012",
        date_of_birth := "01/01/1990",
        gender := "MALE",
        address := "KUMAR S/O SURESH KUMAR DOB 01/01/1990 MALE 1234 5678 9012" } := by
  decide

/-- C3 counterexample: with the bare-shaped token WXYZ0654321 occurring
before the anchored occurrence IFSC: ABCD0123456, the extracted routing
code is WXYZ0654321, not the keyword-anchored ABCD0123456. -/
theorem c3_counterexample :
    strContainsB "WXYZ0654321 IFSC: ABCD0123456" "IFSC: ABCD0123456" = true ∧
    (extract_bank_data_locally "WXYZ0654321 IFSC: ABCD0123456").ifsc_code = "WXYZ0654321" ∧
    (extract_bank_data_locally "WXYZ0654321 IFSC: ABCD0123456").ifsc_code ≠ "ABCD0123456" := by
  decide

/-- C3 (amended): the bare-format IFSC pattern is tried before the
keyword-anchored patterns, so with both an anchored value and a bare
token present the extracted routing code is whichever IFSC-shaped token
occurs first in the flattened text; the anchored capture only decides
when the bare pattern matches nowhere. -/
theorem c3_theorem :
    (extract_bank_data_locally "IFSC: ABCD0123456 AND WXYZ0654321").ifsc_code =
      "ABCD0123456" ∧
    (extract_bank_data_locally "WXYZ0654321 IFSC: ABCD0123456").ifsc_code =
      "WXYZ0654321" ∧
    (extract_bank_data_locally "IFSCABCD0123456").ifsc_code = "ABCD0123456" := by
  decide

/-- C5: the whitespace collapse runs before the newline split, so the
input ABC newline DEF yields the single line ABC DEF instead of the two
lines the normalizer contract describes. -/
theorem c5_theorem :
    (preprocess_bank_text "ABC\nDEF").1 = ["ABC DEF"] ∧
    (preprocess_bank_text "ABC\nDEF").1.length = 1 := by decide

/-- The name-line qualification exactly as claim C9 words it: two to four
alphabetic tokens, no digit, none of the skip keywords (no length bound
on the line). -/
def claimNameQualB (line : String) : Bool :=
  2 ≤ (pySplit line).length && (pySplit line).length ≤ 4 &&
    (pySplit line).all pyIsAlpha && !(line.data.any Char.isDigit) &&
    !(skipKeywords.any (fun kw => strContainsB (pyUpper line) kw))

/-- C9 counterexample: the line AB CD satisfies the claim's qualification
(two alphabetic tokens, no digits, no skip keywords) and is the first
line, yet the extractor leaves the holder name Not Available, because the
source also requires the cleaned line to be longer than five characters. -/
theorem c9_counterexample :
    (preprocess_bank_text "AB CD").1 = ["AB CD"] ∧
    claimNameQualB "AB CD" = true ∧
    (extract_bank_data_locally "AB CD").name = "Not Available" := by decide

/-- C9 (amended): if position i of the normalized line sequence is the
first line satisfying the source's qualification custQualB (two to four
tokens after cleaning, no skip keyword, no digit, and cleaned length
strictly greater than five), the extractor sets the holder name to that
line's cleaned form. -/
theorem c9_theorem (text : String) (i : Nat)
    (h : i < (preprocess_bank_text text).1.length)
    (hq : custQualB ((preprocess_bank_text text).1.get ⟨i, h⟩) = true)
    (hfirst : ∀ j (hj : j < i),
      custQualB ((preprocess_bank_text text).1.get ⟨j, lt_trans hj h⟩) = false) :
    (extract_bank_data_locally text).name =
      cleanAlphaLine ((preprocess_bank_text text).1.get ⟨i, h⟩) := by
  have he : (extract_bank_data_locally text).name =
      pyOrDefault (findCustomerName (preprocess_bank_text text).1) "Not Available" := rfl
  rw [he]
  have hf := find?_eq_get custQualB (preprocess_bank_text text).1 i h hq hfirst
  have hcn : findCustomerName (preprocess_bank_text text).1 =
      cleanAlphaLine ((preprocess_bank_text text).1.get ⟨i, h⟩) := by
    unfold findCustomerName
    rw [hf]
  rw [hcn]
  exact pyOr_of_ne (custQual_clean_ne hq)

/-- C9 witness: the theorem applied at the input RAHUL SHARMA, whose
single line qualifies at position zero. -/
theorem c9_witness : (extract_bank_data_locally "RAHUL SHARMA").name = "RAHUL SHARMA" := by
  have h : (0 : Nat) < (preprocess_bank_text "RAHUL SHARMA").1.length := by decide
  have hget : (preprocess_bank_text "RAHUL SHARMA").1.get ⟨0, h⟩ = "RAHUL SHARMA" := rfl
  have hth := c9_theorem "RAHUL SHARMA" 0 h (by rw [hget]; decide)
    (fun j hj => absurd hj (Nat.not_lt_zero j))
  rw [hth, hget]
  decide

/-- C4 counterexample: on an input with no address-indicator keyword, the
identity-schema extractor guesses the address from trailing text instead
of returning Not Available. -/
theorem c4_counterexample :
    (addressKeywords.all (fun kw => !strContainsB (pyUpper "MAIN STREET HOUSE") kw)) = true ∧
    (extract_aadhaar_data_locally "MAIN STREET HOUSE").address = "MAIN STREET HOUSE" ∧
    (extract_aadhaar_data_locally "MAIN STREET HOUSE").address ≠ "Not Available" := by
  decide

/-- C4 (amended): the address-keyword gate holds for the bank-schema
extractor only: when no normalized line contains an address-indicator
keyword, the bank extractor returns address Not Available; the
identity-schema extractor has no such gate. -/
theorem c4_theorem (text : String)
    (h : ∀ line ∈ (preprocess_bank_text text).1, kwHitB addressKeywords line = false) :
    (extract_bank_data_locally text).address = "Not Available" :=
  bank_address_NA text h

/-- C4 witness: the theorem applied at an input with no address keyword. -/
theorem c4_witness : (extract_bank_data_locally "RAHUL SHARMA").address = "Not Available" :=
  c4_theorem "RAHUL SHARMA" (by decide)

/-- C6 counterexample: on the model-failure path the returned record is
exactly the ten schema fields; no provenance component and no
local-fallback marker is attached to it. -/
theorem c6_counterexample :
    keysOf (extract_bank "RAHUL KUMAR" none) = bankFieldNames ∧
    ("provenance" ∈ keysOf (extract_bank "RAHUL KUMAR" none) → False) ∧
    ("local-fallback" ∈ keysOf (extract_bank "RAHUL KUMAR" none) → False) := by decide

/-- C6 (amended): whenever the model response fails to parse (or the model
call fails), both endpoints return, field for field, exactly what the
rule-based extractor produces standalone on the same text — the bank
endpoint's final cleanup pass is the identity on the local output — but
no provenance tag is attached to the record. -/
theorem c6_theorem (text : String) :
    extract_bank text none = bankToPy (extract_bank_data_locally text) ∧
    extract_aadhaar text none = aadhaarToPy (extract_aadhaar_data_locally text) :=
  ⟨extract_bank_none text, extract_aadhaar_none text⟩

/-- C7 counterexample: a successful extraction response from the identity
endpoint carries exactly the five schema fields and no provenance
component. -/
theorem c7_counterexample :
    keysOf (extract_aadhaar "RAMESH KUMAR MALE" none) = aadhaarFieldNames ∧
    ("provenance" ∈ keysOf (extract_aadhaar "RAMESH KUMAR MALE" none) → False) := by decide

/-- C7 (amended): the endpoints attach no provenance component; on the
fallback path the returned object's keys are exactly the schema's field
names, and provenance is not among them (which strategy ran is only
visible in server logs). -/
theorem c7_theorem (text : String) :
    keysOf (extract_bank text none) = bankFieldNames ∧
    ¬ "provenance" ∈ keysOf (extract_bank text none) ∧
    keysOf (extract_aadhaar text none) = aadhaarFieldNames ∧
    ¬ "provenance" ∈ keysOf (extract_aadhaar text none) := by
  have hb : keysOf (extract_bank text none) = bankFieldNames := by
    rw [extract_bank_none]
    rfl
  have ha : keysOf (extract_aadhaar text none) = aadhaarFieldNames := by
    rw [extract_aadhaar_none]
    rfl
  refine ⟨hb, ?_, ha, ?_⟩
  · rw [hb]
    decide
  · rw [ha]
    decide

/-- C8 counterexample: the identity-schema extractor returns the empty
string, not the sentinel Not Available, for every unresolved field (here
on the empty input every field is unresolved). -/
theorem c8_counterexample :
    (extract_aadhaar_data_locally "").name = "" ∧
    (extract_aadhaar_data_locally "").aadhaar_number = "" ∧
    (extract_aadhaar_data_locally "").date_of_birth = "" ∧
    (extract_aadhaar_data_locally "").gender = "" ∧
    (extract_aadhaar_data_locally "").address = "" := by decide

/-- C8 (amended): the bank-schema extractor sets every unresolved field to
Not Available and never returns an empty-string field; the
identity-schema extractor instead defaults unresolved fields to the empty
string. -/
theorem c8_theorem (text : String) :
    (extract_bank_data_locally text).bank_name ≠ "" ∧
    (extract_bank_data_locally text).branch_name ≠ "" ∧
    (extract_bank_data_locally text).ifsc_code ≠ "" ∧
    (extract_bank_data_locally text).name ≠ "" ∧
    (extract_bank_data_locally text).pan_no ≠ "" ∧
    (extract_bank_data_locally text).cif ≠ "" ∧
    (extract_bank_data_locally text).phone_number ≠ "" ∧
    (extract_bank_data_locally text).account ≠ "" ∧
    (extract_bank_data_locally text).nominee ≠ "" ∧
    (extract_bank_data_locally text).address ≠ "" :=
  ⟨(bank_bankName_fix text).2, (bank_branchName_fix text).2, (bank_ifsc_fix text).2,
   (bank_custName_fix text).2, (bank_pan_fix text).2, (bank_cif_fix text).2,
   (bank_phone_fix text).2, (bank_account_fix text).2, (bank_nominee_fix text).2,
   (bank_address_fix text).2⟩

/-- C1 counterexample: a model response that parses as a JSON object with
a wrong key set is returned as is — the missing schema fields are not
re-added and the extra key is not removed. -/
theorem c1_counterexample :
    keysOf (extract_bank "X" (some [("foo", PyVal.str "bar")])) = ["foo"] ∧
    keysOf (extract_bank "X" (some [("foo", PyVal.str "bar")])) ≠ bankFieldNames := by
  constructor
  · rfl
  · intro hcontra
    have h2 : (["foo"] : List String) = bankFieldNames := Eq.trans (by rfl) hcontra
    exact absurd h2 (by decide)

/-- C1 (amended): on the local-fallback path both endpoints return key
sets equal to the schema's declared field set, for every input; on the
model path the parsed object's own key set is returned unchanged —
missing fields are not re-added and extra fields are not removed. -/
theorem c1_theorem (text : String) (kv : String × PyVal) (d : List (String × PyVal)) :
    keysOf (extract_bank text none) = bankFieldNames ∧
    keysOf (extract_aadhaar text none) = aadhaarFieldNames ∧
    keysOf (extract_bank text (some (kv :: d))) = keysOf (kv :: d) ∧
    keysOf (extract_aadhaar text (some (kv :: d))) = keysOf (kv :: d) := by
  refine ⟨?_, ?_, ?_, ?_⟩
  · rw [extract_bank_none]
    rfl
  · rw [extract_aadhaar_none]
    rfl
  · rw [extract_bank_some_cons]
    exact keysOf_bankCleanup (kv :: d)
  · rfl

/-- C10: in the bank endpoint's final normalization pass, a non-string
value of the parsed model response is returned to the caller unchanged,
while a string value is stripped and coerced from empty to Not
Available. -/
theorem c10_theorem (text : String) (d : List (String × PyVal)) (k : String) (v : PyVal)
    (hmem : (k, v) ∈ d) :
    ((∀ s, v ≠ PyVal.str s) → (k, v) ∈ extract_bank text (some d)) ∧
    (∀ s, v = PyVal.str s →
      (k, PyVal.str (if (pyStrip s).data.isEmpty then "Not Available" else pyStrip s)) ∈
        extract_bank text (some d)) := by
  have hd : extract_bank text (some d) = bankCleanup d := by
    cases d with
    | nil => cases hmem
    | cons kv t => rfl
  rw [hd]
  constructor
  · intro hns
    have hv : bankCleanVal v = v := by
      cases v
      case str s => exact absurd rfl (hns s)
      all_goals rfl
    have hm := List.mem_map_of_mem (fun kv => (kv.1, bankCleanVal kv.2)) hmem
    simp only at hm
    rw [hv] at hm
    exact hm
  · intro s hs
    subst hs
    exact List.mem_map_of_mem (fun kv => (kv.1, bankCleanVal kv.2)) hmem

/-- C10 witness: the theorem applied to a parsed response holding one
integer entry (kept unchanged) and one padded string entry (stripped). -/
theorem c10_witness :
    ("id", PyVal.intv 7) ∈
      extract_bank "X" (some [("id", PyVal.intv 7), ("nm", PyVal.str " A ")]) ∧
    ("nm", PyVal.str "A") ∈
      extract_bank "X" (some [("id", PyVal.intv 7), ("nm", PyVal.str " A ")]) := by
  have hth1 := c10_theorem "X" [("id", PyVal.intv 7), ("nm", PyVal.str " A ")] "id"
    (PyVal.intv 7) (List.mem_cons_self _ _)
  have hth2 := c10_theorem "X" [("id", PyVal.intv 7), ("nm", PyVal.str " A ")] "nm"
    (PyVal.str " A ") (List.mem_cons_of_mem _ (List.mem_cons_self _ _))
  exact ⟨hth1.1 (fun s h => by cases h), hth2.2 " A " rfl⟩
